import Mathlib

/-!
Shallow embedding of the session, login and verification logic of
react-router-user-starter: the drizzle schema (users, passwords, sessions,
verification tables), `app/utils/auth.server.ts` (getUserId, logout, login,
verifyUserPassword, getSessionExpirationDate) and
`app/utils/login.server.ts` (handleNewSession, handleVerification,
shouldRequestTwoFA).

Opaque uuids are modelled as `Nat`; timestamps are milliseconds since the
epoch as `Nat`; the bcrypt capability is an abstract comparison function
passed as a parameter; drizzle `findFirst` is `List.find?`; cookie session
objects (authSession, verifySession) are records holding exactly the keys
the code uses; a thrown `redirect(...)` is an explicit outcome constructor.
-/

namespace UserStarter

/-- Purpose tag of a verification row.  The schema stores it as text; the
login code compares it against the constant `twoFAVerificationType` imported
from the two-factor settings route. -/
inductive VType where
  | emailConfirmation
  | passwordReset
  | emailChange
  | secondFactor
  deriving Repr, DecidableEq

/-- Models the constant `twoFAVerificationType` exported by
`app/routes/settings/two-factor` (the second-factor purpose tag). -/
def twoFAVerificationType : VType := VType.secondFactor

/-- A row of the `users` table (drizzle schema), with the columns the
embedded code reads. -/
structure UserRow where
  id : Nat
  email : String
  deriving Repr, DecidableEq

/-- A row of the `passwords` table: a bcrypt hash owned by one user. -/
structure PasswordRow where
  userId : Nat
  hash : String
  deriving Repr, DecidableEq

/-- A row of the `sessions` table. -/
structure SessionRow where
  id : Nat
  userId : Nat
  createdAt : Nat
  expirationDate : Nat
  deriving Repr, DecidableEq

/-- A row of the `verification` table. -/
structure VerificationRow where
  id : Nat
  createdAt : Nat
  type : VType
  target : Nat
  secret : String
  algorithm : String
  digits : Nat
  period : Nat
  charSet : String
  expiresAt : Option Nat
  deriving Repr, DecidableEq

/-- The durable relational store: the four tables the embedded code touches. -/
structure Db where
  users : List UserRow
  passwords : List PasswordRow
  sessions : List SessionRow
  verifications : List VerificationRow
  deriving Repr, DecidableEq

/-- The authenticated cookie channel (`authSessionStorage`): holds the
`sessionKey` ("sessionId") and `verifiedTimeKey` ("verified-time") entries. -/
structure AuthSession where
  sessionId : Option Nat
  verifiedTime : Option Nat
  deriving Repr, DecidableEq

/-- The ephemeral pending step-up cookie channel (`verifySessionStorage`):
holds `unverifiedSessionIdKey` and `rememberKey` entries. -/
structure VerifySession where
  unverifiedSessionId : Option Nat
  remember : Option Bool
  deriving Repr, DecidableEq

/-- `SESSION_EXPIRATION_TIME = 1000 * 60 * 60 * 24 * 30` (auth.server.ts). -/
def SESSION_EXPIRATION_TIME : Nat := 1000 * 60 * 60 * 24 * 30

/-- `getSessionExpirationDate` (auth.server.ts): now plus the fixed
expiration constant. -/
def getSessionExpirationDate (now : Nat) : Nat :=
  now + SESSION_EXPIRATION_TIME

/-- Outcome of `getUserId` (auth.server.ts): `null` when no session cookie,
a thrown `redirect("/")` destroying the cookie when the session row is
missing or expired, or the owning user id. -/
inductive GetUserIdResult where
  | anonymous
  | redirectHome
  | user (id : Nat)
  deriving Repr, DecidableEq

/-- `getUserId` (auth.server.ts): reads `sessionKey` from the auth cookie;
if absent returns null; otherwise looks up the session row with that id and
`expirationDate > now` joined with its user, throwing a redirect home when
none is found. -/
def getUserId (db : Db) (auth : AuthSession) (now : Nat) : GetUserIdResult :=
  match auth.sessionId with
  | none => GetUserIdResult.anonymous
  | some sid =>
    match db.sessions.find? (fun s => s.id == sid && now < s.expirationDate) with
    | none => GetUserIdResult.redirectHome
    | some s =>
      match db.users.find? (fun u => u.id == s.userId) with
      | none => GetUserIdResult.redirectHome
      | some u => GetUserIdResult.user u.id

/-- Result of `logout` (auth.server.ts): the store after the conditional
row delete, plus the redirect response that destroys the auth cookie. -/
structure LogoutResult where
  db : Db
  redirectTo : String
  cookieDestroyed : Bool
  deriving Repr, DecidableEq

/-- `logout` (auth.server.ts): if the auth cookie carries a session id,
delete every `sessions` row with that id; always destroy the cookie and
redirect. -/
def logout (db : Db) (auth : AuthSession) (redirectTo : String) : LogoutResult :=
  let db' :=
    match auth.sessionId with
    | some sid =>
        { db with sessions := db.sessions.filter (fun s => !(s.id == sid)) }
    | none => db
  { db := db', redirectTo := redirectTo, cookieDestroyed := true }

/-- The `userInfo` argument of `verifyUserPassword`: either an email or a
user id (or neither). -/
structure UserInfo where
  email : Option String
  userId : Option Nat
  deriving Repr, DecidableEq

/-- The `where` clause built at the top of `verifyUserPassword`: the email
predicate if an email is given, overridden by the id predicate if a user id
is given, `none` if neither. -/
def whereClause (info : UserInfo) : Option (UserRow → Bool) :=
  let w : Option (UserRow → Bool) := none
  let w := match info.email with
    | some e => some (fun u => u.email == e)
    | none => w
  match info.userId with
  | some i => some (fun u => u.id == i)
  | none => w

/-- `verifyUserPassword` (auth.server.ts): finds the user by the where
clause together with its password row and runs `bcrypt.compare`; every
failure path returns null.  The bcrypt capability is the abstract
`compare` parameter. -/
def verifyUserPassword (compare : String → String → Bool) (db : Db)
    (info : UserInfo) (password : String) : Option Nat :=
  match whereClause info with
  | none => none
  | some w =>
    match db.users.find? w with
    | none => none
    | some u =>
      match db.passwords.find? (fun p => p.userId == u.id) with
      | none => none
      | some p => if compare password p.hash then some u.id else none

/-- Result of `login` (auth.server.ts): the store after the conditional
session insert and the returned row (null on credential failure). -/
structure LoginResult where
  db : Db
  session : Option SessionRow
  deriving Repr, DecidableEq

/-- `login` (auth.server.ts): verifies the credentials and, on success,
inserts a fresh session row with `expirationDate = getSessionExpirationDate()`
and returns it; on failure returns null without touching the store. -/
def login (compare : String → String → Bool) (db : Db)
    (email password : String) (freshId : Nat) (now : Nat) : LoginResult :=
  match verifyUserPassword compare db { email := some email, userId := none } password with
  | none => { db := db, session := none }
  | some uid =>
    let s : SessionRow :=
      { id := freshId, userId := uid, createdAt := now
        expirationDate := getSessionExpirationDate now }
    { db := { db with sessions := db.sessions ++ [s] }, session := some s }

/-- Whether the user owns an enrolled second factor: the
`db.query.verification.findFirst` lookup on
`target = userId && type = twoFAVerificationType` shared by
`handleNewSession` and `shouldRequestTwoFA` (login.server.ts). -/
def findTwoFactorRow (db : Db) (userId : Nat) : Option VerificationRow :=
  db.verifications.find? (fun v =>
    v.target == userId && v.type == twoFAVerificationType)

/-- Outcome of `handleNewSession` (login.server.ts): either a redirect to
the step-up verify page (second factor enrolled) or a redirect to
`redirectTo` with the session committed. -/
inductive NewSessionOutcome where
  | stepUpRedirect
  | committed
  deriving Repr, DecidableEq

/-- Result of `handleNewSession`: the store (never written by this
function), and the cookies committed in the response — the pending channel
in the step-up branch, or the auth channel (with its optional `expires`
attribute) in the direct-commit branch. -/
structure HandleNewSessionResult where
  db : Db
  outcome : NewSessionOutcome
  verifySessionOut : Option VerifySession
  authSessionOut : Option (AuthSession × Option Nat)
  deriving Repr, DecidableEq

/-- `handleNewSession` (login.server.ts): if a second-factor verification
row exists for the session's user, park `{unverifiedSessionId, remember}`
in a fresh pending cookie and redirect to the verify page without touching
the auth channel; otherwise set `sessionKey` in the auth cookie and commit
it with `expires = remember ? session.expirationDate : undefined`. -/
def handleNewSession (db : Db) (authIn : AuthSession)
    (session : SessionRow) (remember : Bool) : HandleNewSessionResult :=
  let existingVerification := findTwoFactorRow db session.userId
  if existingVerification.isSome then
    let vs : VerifySession :=
      { unverifiedSessionId := some session.id, remember := some remember }
    { db := db, outcome := NewSessionOutcome.stepUpRedirect
      verifySessionOut := some vs, authSessionOut := none }
  else
    let auth := { authIn with sessionId := some session.id }
    { db := db, outcome := NewSessionOutcome.committed
      verifySessionOut := none
      authSessionOut :=
        some (auth, if remember then some session.expirationDate else none) }

/-- Outcome of `handleVerification` (login.server.ts): a thrown redirect to
the login page when the pending session row is missing, or a redirect to
`redirectTo` with the cookies committed. -/
inductive VerificationOutcome where
  | abortLogin
  | committed (redirectTo : String)
  deriving Repr, DecidableEq

/-- Result of `handleVerification`: the store (never written), the auth
cookie committed (with its optional `expires`), and whether the pending
cookie was destroyed.  On the thrown redirect neither header is emitted. -/
structure HandleVerificationResult where
  db : Db
  outcome : VerificationOutcome
  authSessionOut : Option (AuthSession × Option Nat)
  verifyDestroyed : Bool
  deriving Repr, DecidableEq

/-- `handleVerification` (login.server.ts): stamps `verifiedTimeKey = now`
into the auth cookie; if the pending channel holds an unverified session id,
looks up that session row — aborting to the login page when absent —
then binds `sessionKey` to the pending id and commits with
`expires = remember ? existingSession.expirationDate : undefined`; finally
destroys the pending cookie. -/
def handleVerification (db : Db) (authIn : AuthSession)
    (verifyIn : VerifySession) (now : Nat) (redirectTo : String) :
    HandleVerificationResult :=
  let remember := verifyIn.remember
  let auth1 := { authIn with verifiedTime := some now }
  match verifyIn.unverifiedSessionId with
  | some usid =>
    match db.sessions.find? (fun s => s.id == usid) with
    | none =>
      { db := db, outcome := VerificationOutcome.abortLogin
        authSessionOut := none, verifyDestroyed := false }
    | some existingSession =>
      let auth2 := { auth1 with sessionId := some usid }
      { db := db, outcome := VerificationOutcome.committed redirectTo
        authSessionOut :=
          some (auth2,
            if remember = some true then some existingSession.expirationDate
            else none)
        verifyDestroyed := true }
  | none =>
    { db := db, outcome := VerificationOutcome.committed redirectTo
      authSessionOut := some (auth1, none), verifyDestroyed := true }

/-- Outcome of `shouldRequestTwoFA` (login.server.ts): the boolean answer,
or the redirect thrown from the inner `getUserId` call. -/
inductive TwoFAQueryResult where
  | redirectHome
  | answer (b : Bool)
  deriving Repr, DecidableEq

/-- The constant named `twoHours` in `shouldRequestTwoFA`
(login.server.ts): literally `1000 * 60 * 2` milliseconds. -/
def twoHoursConstant : Nat := 1000 * 60 * 2

/-- `shouldRequestTwoFA` (login.server.ts): true if the pending channel
holds an unverified session id; false for anonymous requests or users with
no enrolled second factor; otherwise true exactly when
`Date.now() - (verifiedTime ?? epoch) > twoHours`. -/
def shouldRequestTwoFA (db : Db) (auth : AuthSession)
    (verify : VerifySession) (now : Nat) : TwoFAQueryResult :=
  if verify.unverifiedSessionId.isSome then TwoFAQueryResult.answer true
  else
    match getUserId db auth now with
    | GetUserIdResult.redirectHome => TwoFAQueryResult.redirectHome
    | GetUserIdResult.anonymous => TwoFAQueryResult.answer false
    | GetUserIdResult.user uid =>
      match findTwoFactorRow db uid with
      | none => TwoFAQueryResult.answer false
      | some _ =>
        let verifiedTime := auth.verifiedTime.getD 0
        TwoFAQueryResult.answer
          (decide ((now : Int) - (verifiedTime : Int) > (twoHoursConstant : Int)))

/-- The freshness threshold the spec states for `requireRecent`: two hours
in milliseconds. -/
def twoHoursSpec : Nat := 1000 * 60 * 60 * 2

/-- Modelled from the spec: the Code Engine `issue` upsert
(`prepareVerification` in `app/utils/verify.server.ts`, not under src/) —
"upserts a Verification row keyed by `(target, type)` (replacing any prior
outstanding challenge for that pair)".  The schema in src declares the
uniqueness constraint on `(target, type)` that the upsert resolves against. -/
def upsertVerification (rows : List VerificationRow) (v : VerificationRow) :
    List VerificationRow :=
  v :: rows.filter (fun w => !(w.target == v.target && w.type == v.type))

/-- Modelled from the spec: consumption of a one-shot challenge — "deleted
when a one-shot challenge is consumed" — a keyed delete on `(target, type)`. -/
def deleteVerification (rows : List VerificationRow) (target : Nat)
    (type : VType) : List VerificationRow :=
  rows.filter (fun w => !(w.target == target && w.type == type))

/-- One atomic operation against the verification store: an issuance upsert
or a one-shot consumption delete.  Each request performs these as single
bounded store round trips, so any concurrent schedule is a sequence of them. -/
inductive VOp where
  | issue (v : VerificationRow)
  | consume (target : Nat) (type : VType)
  deriving Repr, DecidableEq

/-- Apply one atomic verification-store operation. -/
def applyVOp (rows : List VerificationRow) : VOp → List VerificationRow
  | VOp.issue v => upsertVerification rows v
  | VOp.consume target type => deleteVerification rows target type

/-- Run a schedule of atomic verification-store operations. -/
def runVOps (rows : List VerificationRow) : List VOp → List VerificationRow
  | [] => rows
  | op :: ops => runVOps (applyVOp rows op) ops

/-- The `(target, type)` uniqueness constraint of the `verification` table
(drizzle schema): no two rows share the key pair. -/
def atMostOnePerKey (rows : List VerificationRow) : Prop :=
  rows.Pairwise (fun a b => ¬(a.target = b.target ∧ a.type = b.type))

/-- The `userInfo` argument used by `login`: an email and no user id. -/
def emailInfo (email : String) : UserInfo :=
  { email := some email, userId := none }

/-- The three credential-failure modes of `verifyUserPassword` for the
email path: no user row with the email, a user row without a password row,
or a failing bcrypt comparison. -/
def credentialFailure (compare : String → String → Bool) (db : Db)
    (email password : String) : Prop :=
  db.users.find? (fun u => u.email == email) = none ∨
  (∃ u, db.users.find? (fun u' => u'.email == email) = some u ∧
    db.passwords.find? (fun p => p.userId == u.id) = none) ∨
  (∃ u p, db.users.find? (fun u' => u'.email == email) = some u ∧
    db.passwords.find? (fun p' => p'.userId == u.id) = some p ∧
    compare password p.hash = false)

/-- Concrete user fixture for closed witnesses. -/
def alice : UserRow := { id := 7, email := "a@example.com" }

/-- Concrete password-row fixture for closed witnesses. -/
def alicePassword : PasswordRow := { userId := 7, hash := "h" }

/-- Concrete session-row fixture for closed witnesses. -/
def aliceSession : SessionRow :=
  { id := 3, userId := 7, createdAt := 0, expirationDate := 99 }

/-- Concrete enrolled-second-factor verification row for closed witnesses. -/
def aliceTwoFA : VerificationRow :=
  { id := 11, createdAt := 0, type := VType.secondFactor, target := 7
    secret := "s", algorithm := "SHA-1", digits := 6, period := 30
    charSet := "0123456789", expiresAt := none }

/-- The empty store. -/
def emptyDb : Db :=
  { users := [], passwords := [], sessions := [], verifications := [] }

/-- A one-user store whose user has a password, a live session row and an
enrolled second factor. -/
def enrolledDb : Db :=
  { users := [alice], passwords := [alicePassword]
    sessions := [aliceSession], verifications := [aliceTwoFA] }

/-- An empty authenticated cookie channel. -/
def authNone : AuthSession := { sessionId := none, verifiedTime := none }

/-- The session row `login` mints for Alice with fresh id 5 at time 1000. -/
def aliceFreshSession : SessionRow :=
  { id := 5, userId := 7, createdAt := 1000
    expirationDate := 1000 + SESSION_EXPIRATION_TIME }

/-- The store after Alice's successful credential check: her candidate
session row has been appended. -/
def dbAfterLogin : Db :=
  { users := [alice], passwords := [alicePassword]
    sessions := [aliceSession, aliceFreshSession]
    verifications := [aliceTwoFA] }

/-- The pending channel handleNewSession parks for Alice's candidate
session with remember set. -/
def alicePending : VerifySession :=
  { unverifiedSessionId := some 5, remember := some true }

/-- Concrete clock instant for the freshness-gate scenario. -/
def nowStale : Nat := 1000000000

/-- A session row for Alice that is live at `nowStale`. -/
def aliceLiveSession : SessionRow :=
  { id := 3, userId := 7, createdAt := 0, expirationDate := nowStale + 1000 }

/-- Store for the freshness-gate scenario: Alice enrolled in 2FA with a
session row live at `nowStale`. -/
def dbStale : Db :=
  { users := [alice], passwords := [alicePassword]
    sessions := [aliceLiveSession], verifications := [aliceTwoFA] }

/-- Authenticated channel for the freshness-gate scenario: committed
session 3, step-up stamped ten minutes before `nowStale`. -/
def authStale : AuthSession :=
  { sessionId := some 3, verifiedTime := some (nowStale - 600000) }

lemma whereClause_emailInfo (email : String) :
    whereClause (emailInfo email) = some (fun u => u.email == email) := rfl

lemma verifyUserPassword_eq_none_of_failure
    (compare : String → String → Bool) (db : Db) (email password : String)
    (h : credentialFailure compare db email password) :
    verifyUserPassword compare db (emailInfo email) password = none := by
  unfold verifyUserPassword
  rw [whereClause_emailInfo]
  rcases h with h | ⟨u, hu, hp⟩ | ⟨u, p, hu, hp, hc⟩
  · simp [h]
  · simp [hu, hp]
  · simp [hu, hp, hc]

end UserStarter

namespace UserStarter

/-- C9: `logout` leaves no session row with the cookie's id, invoking it a
second time yields the identical result (idempotence), and the cookie is
always destroyed — in particular it never fails when the row is already
absent, since the delete is a total filter. -/
theorem logout_idempotent (db : Db) (auth : AuthSession) (rt : String) :
    (∀ s ∈ (logout db auth rt).db.sessions, auth.sessionId ≠ some s.id) ∧
    logout (logout db auth rt).db auth rt = logout db auth rt ∧
    (logout db auth rt).cookieDestroyed = true := by
  unfold logout
  cases h : auth.sessionId with
  | none => simp [h]
  | some sid =>
    refine ⟨?_, ?_, rfl⟩
    · intro s hs
      simp only [List.mem_filter] at hs
      simp only [h, ne_eq, Option.some.injEq]
      intro heq
      rw [← heq] at hs
      simp at hs
    · simp only [h]
      have hfix : (db.sessions.filter (fun s => !(s.id == sid))).filter
          (fun s => !(s.id == sid)) =
          db.sessions.filter (fun s => !(s.id == sid)) := by
        rw [List.filter_eq_self]
        intro a ha
        exact (List.mem_filter.mp ha).2
      simp [hfix]

/-- C10: when credential verification fails, `login` returns null and the
store — in particular the sessions table — is unchanged: no session row is
inserted. -/
theorem login_failure_no_session_row
    (compare : String → String → Bool) (db : Db) (email password : String)
    (freshId now : Nat)
    (h : verifyUserPassword compare db (emailInfo email) password = none) :
    login compare db email password freshId now = { db := db, session := none } := by
  unfold login
  rw [show ({ email := some email, userId := none } : UserInfo) = emailInfo email from rfl]
  rw [h]

/-- Closed witness for C10: a store with no users rejects any credentials
and the sessions table stays empty. -/
theorem login_failure_no_session_row_witness :
    login (fun _ _ => true) emptyDb "a@example.com" "pw" 5 1000 =
      { db := emptyDb, session := none } :=
  login_failure_no_session_row (fun _ _ => true) emptyDb
    "a@example.com" "pw" 5 1000 (by rfl)

/-- C5: every credential-failure mode of `verifyUserPassword` — unknown
email, user without a stored hash, failing bcrypt comparison — produces the
same observable outcome, null, so two failing invocations are
indistinguishable by their return values. -/
theorem verifyUserPassword_uniform_failure
    (c1 c2 : String → String → Bool) (db1 db2 : Db) (e1 e2 pw1 pw2 : String)
    (h1 : credentialFailure c1 db1 e1 pw1)
    (h2 : credentialFailure c2 db2 e2 pw2) :
    verifyUserPassword c1 db1 (emailInfo e1) pw1 = none ∧
    verifyUserPassword c1 db1 (emailInfo e1) pw1 =
      verifyUserPassword c2 db2 (emailInfo e2) pw2 := by
  have hn1 := verifyUserPassword_eq_none_of_failure c1 db1 e1 pw1 h1
  have hn2 := verifyUserPassword_eq_none_of_failure c2 db2 e2 pw2 h2
  exact ⟨hn1, hn1.trans hn2.symm⟩

/-- Closed witness for C5: a wrong-password failure against a populated
store and a no-such-user failure against an empty store return the same
null outcome. -/
theorem verifyUserPassword_uniform_failure_witness :
    verifyUserPassword (fun _ _ => false) enrolledDb
      (emailInfo "a@example.com") "wrong" = none ∧
    verifyUserPassword (fun _ _ => false) enrolledDb
      (emailInfo "a@example.com") "wrong" =
    verifyUserPassword (fun _ _ => true) emptyDb
      (emailInfo "b@example.com") "pw" :=
  verifyUserPassword_uniform_failure
    (fun _ _ => false) (fun _ _ => true) enrolledDb emptyDb
    "a@example.com" "b@example.com" "wrong" "pw"
    (Or.inr (Or.inr ⟨alice, alicePassword, by rfl, by rfl, rfl⟩))
    (Or.inl (by rfl))

/-- C3: with a second factor enrolled, `handleNewSession` writes only the
pending channel — exactly the unverified session id and the remember flag —
and commits nothing on the authenticated channel: `sessionKey` is never
set and the store is untouched. -/
theorem handleNewSession_twoFA_frame
    (db : Db) (authIn : AuthSession) (session : SessionRow) (remember : Bool)
    (h : (findTwoFactorRow db session.userId).isSome) :
    handleNewSession db authIn session remember =
      { db := db, outcome := NewSessionOutcome.stepUpRedirect
        verifySessionOut :=
          some { unverifiedSessionId := some session.id, remember := some remember }
        authSessionOut := none } := by
  unfold handleNewSession
  simp [h]

/-- Closed witness for C3: a one-user store with an enrolled second factor
parks the candidate id in the pending channel and leaves the auth channel
alone. -/
theorem handleNewSession_twoFA_frame_witness :
    handleNewSession enrolledDb { sessionId := none, verifiedTime := none }
      aliceSession true =
      { db := enrolledDb, outcome := NewSessionOutcome.stepUpRedirect
        verifySessionOut :=
          some { unverifiedSessionId := some aliceSession.id, remember := some true }
        authSessionOut := none } :=
  handleNewSession_twoFA_frame enrolledDb
    { sessionId := none, verifiedTime := none } aliceSession true (by rfl)

/-- C6: when the pending channel names an unverified session id but no
session row with that id exists, `handleVerification` aborts with the
redirect to the login page, commits nothing on the authenticated channel
(no session id is bound), and leaves the store untouched. -/
theorem handleVerification_missing_session_aborts
    (db : Db) (authIn : AuthSession) (verifyIn : VerifySession)
    (now : Nat) (rt : String) (usid : Nat)
    (hpend : verifyIn.unverifiedSessionId = some usid)
    (hmiss : ∀ s ∈ db.sessions, s.id ≠ usid) :
    handleVerification db authIn verifyIn now rt =
      { db := db, outcome := VerificationOutcome.abortLogin
        authSessionOut := none, verifyDestroyed := false } := by
  unfold handleVerification
  rw [hpend]
  have hfind : db.sessions.find? (fun s => s.id == usid) = none := by
    rw [List.find?_eq_none]
    intro s hs
    simpa using hmiss s hs
  simp [hfind]

/-- Closed witness for C6: a pending id pointing at an empty sessions table
aborts to the login page with no auth-channel commit. -/
theorem handleVerification_missing_session_aborts_witness :
    handleVerification emptyDb { sessionId := none, verifiedTime := none }
      { unverifiedSessionId := some 3, remember := some true } 1000 "/" =
      { db := emptyDb, outcome := VerificationOutcome.abortLogin
        authSessionOut := none, verifyDestroyed := false } :=
  handleVerification_missing_session_aborts emptyDb
    { sessionId := none, verifiedTime := none }
    { unverifiedSessionId := some 3, remember := some true } 1000 "/" 3
    (by rfl) (by intro s hs; simp [emptyDb] at hs)

/-- C8: the session row minted by `login` always expires exactly
`SESSION_EXPIRATION_TIME` (30 days) after creation — `login` takes no
remember flag at all — while in `handleNewSession`'s direct-commit branch
the remember flag only chooses between extending the auth cookie's expiry
to the row's `expirationDate` and leaving it browser-session-scoped. -/
theorem session_expiry_fixed_remember_cookie_only
    (compare : String → String → Bool) (db db2 : Db) (email password : String)
    (freshId now : Nat) (authIn : AuthSession) (remember : Bool) (s : SessionRow)
    (hs : (login compare db email password freshId now).session = some s)
    (hno : findTwoFactorRow db2 s.userId = none) :
    s.expirationDate = getSessionExpirationDate now ∧
    getSessionExpirationDate now = now + 1000 * 60 * 60 * 24 * 30 ∧
    (handleNewSession db2 authIn s remember).authSessionOut =
      some ({ authIn with sessionId := some s.id },
        if remember then some s.expirationDate else none) := by
  unfold login at hs
  cases hv : verifyUserPassword compare db { email := some email, userId := none } password with
  | none => rw [hv] at hs; simp at hs
  | some uid =>
    rw [hv] at hs
    simp only [Option.some.injEq] at hs
    refine ⟨?_, rfl, ?_⟩
    · rw [← hs]
    · unfold handleNewSession
      simp [hno]

/-- Closed witness for C8: Alice's fresh session row expires 30 days after
creation, and committing it with remember off yields a session-scoped
cookie. -/
theorem session_expiry_fixed_remember_cookie_only_witness :
    aliceFreshSession.expirationDate = getSessionExpirationDate 1000 ∧
    getSessionExpirationDate 1000 = 1000 + 1000 * 60 * 60 * 24 * 30 ∧
    (handleNewSession emptyDb authNone aliceFreshSession false).authSessionOut =
      some ({ authNone with sessionId := some aliceFreshSession.id },
        if false then some aliceFreshSession.expirationDate else none) :=
  session_expiry_fixed_remember_cookie_only (fun p h => p == h)
    enrolledDb emptyDb "a@example.com" "h" 5 1000 authNone false
    aliceFreshSession (by rfl) (by rfl)

/-- C2: after a successful credential check the candidate session row is in
the store, and when the step-up branch parks its id in the pending channel,
a successful `handleVerification` commits with exactly that id bound as the
authenticated channel's `sessionKey` — the store is untouched, so promotion
reuses the candidate row rather than minting a new one. -/
theorem stepUp_promotion_reuses_candidate_session
    (compare : String → String → Bool) (db db1 : Db) (email password rt : String)
    (freshId now now2 : Nat) (authIn authIn2 : AuthSession) (remember : Bool)
    (s : SessionRow) (vs : VerifySession)
    (hlogin : login compare db email password freshId now =
      { db := db1, session := some s })
    (hvs : (handleNewSession db1 authIn s remember).verifySessionOut = some vs) :
    (handleVerification db1 authIn2 vs now2 rt).outcome =
      VerificationOutcome.committed rt ∧
    (∃ auth2 exp,
      (handleVerification db1 authIn2 vs now2 rt).authSessionOut =
        some (auth2, exp) ∧ auth2.sessionId = some s.id) ∧
    (handleVerification db1 authIn2 vs now2 rt).db = db1 := by
  have hmem : s ∈ db1.sessions := by
    unfold login at hlogin
    cases hv : verifyUserPassword compare db { email := some email, userId := none } password with
    | none => rw [hv] at hlogin; simp at hlogin
    | some uid =>
      rw [hv] at hlogin
      simp only [LoginResult.mk.injEq, Option.some.injEq] at hlogin
      rw [← hlogin.1, ← hlogin.2]
      simp
  have hvsval : vs = { unverifiedSessionId := some s.id, remember := some remember } := by
    unfold handleNewSession at hvs
    cases h2 : (findTwoFactorRow db1 s.userId).isSome with
    | false => simp [h2] at hvs
    | true =>
      simp only [h2, if_true, Option.some.injEq] at hvs
      exact hvs.symm
  have hfind : (db1.sessions.find? (fun x => x.id == s.id)).isSome := by
    rw [List.find?_isSome]
    exact ⟨s, hmem, by simp⟩
  obtain ⟨r, hr⟩ := Option.isSome_iff_exists.mp hfind
  rw [hvsval]
  refine ⟨?_, ⟨{ sessionId := some s.id, verifiedTime := some now2 },
    (if (some remember : Option Bool) = some true then some r.expirationDate else none),
    ?_, rfl⟩, ?_⟩ <;>
    simp [handleVerification, hr]

/-- Closed witness for C2: running the whole enrolled-login flow for Alice
commits her candidate session id 5 into the authenticated channel. -/
theorem stepUp_promotion_reuses_candidate_session_witness :
    (handleVerification dbAfterLogin authNone alicePending 2000 "/").outcome =
      VerificationOutcome.committed "/" ∧
    (∃ auth2 exp,
      (handleVerification dbAfterLogin authNone alicePending 2000 "/").authSessionOut =
        some (auth2, exp) ∧ auth2.sessionId = some aliceFreshSession.id) ∧
    (handleVerification dbAfterLogin authNone alicePending 2000 "/").db = dbAfterLogin :=
  stepUp_promotion_reuses_candidate_session (fun p h => p == h)
    enrolledDb dbAfterLogin "a@example.com" "h" "/" 5 1000 2000
    authNone authNone true aliceFreshSession alicePending (by rfl) (by rfl)

lemma find?_session_by_id (l : List SessionRow) (s : SessionRow)
    (p : SessionRow → Bool)
    (hu : l.Pairwise (fun a b => a.id ≠ b.id)) (hmem : s ∈ l) :
    l.find? (fun x => x.id == s.id && p x) = if p s then some s else none := by
  induction l with
  | nil => cases hmem
  | cons a l ih =>
    rcases List.pairwise_cons.mp hu with ⟨ha, hl⟩
    rcases List.mem_cons.mp hmem with heq | hmem'
    · subst heq
      by_cases hp : p s
      · rw [List.find?_cons, if_pos hp]
        simp [hp]
      · have hps : p s = false := by
          cases hps' : p s
          · rfl
          · exact absurd hps' hp
        rw [if_neg hp]
        simp only [List.find?_cons, hps, Bool.and_false]
        rw [List.find?_eq_none]
        intro x hx
        have hne : s.id ≠ x.id := ha x hx
        simp only [Bool.and_eq_true, beq_iff_eq, not_and]
        intro hxid
        exact absurd hxid.symm hne
    · have hne : a.id ≠ s.id := ha s hmem'
      have hpred : (a.id == s.id && p a) = false := by simp [hne]
      simp only [List.find?_cons, hpred]
      exact ih hl hmem'

/-- C4: for a session row in a well-formed store with distinct session ids,
`getUserId` on a request carrying that row's id returns the owning user id
exactly when the current time is strictly before `expirationDate`; at or
after that instant it instead throws the redirect home, so the token never
authenticates. -/
theorem getUserId_resolves_iff_live
    (db : Db) (s : SessionRow) (vt : Option Nat) (now : Nat)
    (hwf : ∀ s' ∈ db.sessions, ∃ u ∈ db.users, u.id = s'.userId)
    (huniq : db.sessions.Pairwise (fun a b => a.id ≠ b.id))
    (hmem : s ∈ db.sessions) :
    (getUserId db { sessionId := some s.id, verifiedTime := vt } now =
        GetUserIdResult.user s.userId ↔ now < s.expirationDate) ∧
    (s.expirationDate ≤ now →
      getUserId db { sessionId := some s.id, verifiedTime := vt } now =
        GetUserIdResult.redirectHome) := by
  have hfind := find?_session_by_id db.sessions s
    (fun x => decide (now < x.expirationDate)) huniq hmem
  unfold getUserId
  by_cases hlive : now < s.expirationDate
  · rw [if_pos (by simpa using hlive)] at hfind
    simp only [hfind]
    obtain ⟨u, humem, huid⟩ := hwf s hmem
    have husome : (db.users.find? (fun u' => u'.id == s.userId)).isSome := by
      rw [List.find?_isSome]
      exact ⟨u, humem, by simp [huid]⟩
    obtain ⟨u', hu'⟩ := Option.isSome_iff_exists.mp husome
    have hu'id : u'.id = s.userId := by
      have := List.find?_some hu'
      simpa using this
    simp only [hu']
    constructor
    · exact ⟨fun _ => hlive, fun _ => by simp [hu'id]⟩
    · intro hdead
      exact absurd hlive (by omega)
  · rw [if_neg (by simpa using hlive)] at hfind
    simp only [hfind]
    constructor
    · constructor
      · intro h
        cases h
      · intro h
        exact absurd h hlive
    · intro _
      trivial

/-- Closed witness for C4: Alice's session row (id 3, expiry 99) resolves
to her user id at time 50 and that resolution is equivalent to 50 < 99. -/
theorem getUserId_resolves_iff_live_witness :
    (getUserId enrolledDb { sessionId := some aliceSession.id, verifiedTime := none } 50 =
        GetUserIdResult.user aliceSession.userId ↔ 50 < aliceSession.expirationDate) ∧
    (aliceSession.expirationDate ≤ 50 →
      getUserId enrolledDb { sessionId := some aliceSession.id, verifiedTime := none } 50 =
        GetUserIdResult.redirectHome) :=
  getUserId_resolves_iff_live enrolledDb aliceSession none 50
    (by decide) (by decide) (by decide)

lemma atMostOnePerKey_upsert (rows : List VerificationRow)
    (v : VerificationRow) (h : atMostOnePerKey rows) :
    atMostOnePerKey (upsertVerification rows v) := by
  unfold upsertVerification
  refine List.pairwise_cons.mpr ⟨?_, h.filter _⟩
  intro b hb
  have hkeep := (List.mem_filter.mp hb).2
  intro hcontra
  rcases hcontra with ⟨ht, hty⟩
  rw [← ht, ← hty] at hkeep
  simp at hkeep

lemma atMostOnePerKey_delete (rows : List VerificationRow)
    (target : Nat) (type : VType) (h : atMostOnePerKey rows) :
    atMostOnePerKey (deleteVerification rows target type) :=
  h.filter _

/-- C7: the `(target, type)` uniqueness invariant of the verification table
holds after any schedule of atomic issuance upserts and consumption
deletes, starting from any store satisfying it — so at every point in time
at most one verification row exists per `(target, type)` pair. -/
theorem verification_at_most_one_per_key_invariant
    (rows : List VerificationRow) (ops : List VOp)
    (h : atMostOnePerKey rows) :
    atMostOnePerKey (runVOps rows ops) := by
  induction ops generalizing rows with
  | nil => exact h
  | cons op ops ih =>
    cases op with
    | issue v => exact ih _ (atMostOnePerKey_upsert rows v h)
    | consume target type => exact ih _ (atMostOnePerKey_delete rows target type h)

/-- Closed witness for C7: reissuing Alice's second factor and then
consuming a one-shot challenge leaves a store that still holds at most one
row per `(target, type)` pair. -/
theorem verification_at_most_one_per_key_invariant_witness :
    atMostOnePerKey
      (runVOps [aliceTwoFA]
        [VOp.issue { aliceTwoFA with id := 12, secret := "s2" },
          VOp.consume 7 VType.passwordReset]) :=
  verification_at_most_one_per_key_invariant [aliceTwoFA]
    [VOp.issue { aliceTwoFA with id := 12, secret := "s2" },
      VOp.consume 7 VType.passwordReset]
    (by simp [atMostOnePerKey])

/-- C1 (code bug): for an enrolled user with a committed session, no
pending channel, and a step-up stamp only ten minutes old — well within the
claimed two-hour window — `shouldRequestTwoFA` already reports stale,
because the constant its source names `twoHours` is literally
`1000 * 60 * 2` milliseconds, i.e. two minutes, not the two hours its own
comment and the spec state. -/
theorem shouldRequestTwoFA_two_minute_threshold :
    shouldRequestTwoFA dbStale authStale
      { unverifiedSessionId := none, remember := none } nowStale =
      TwoFAQueryResult.answer true ∧
    nowStale - (nowStale - 600000) ≤ twoHoursSpec ∧
    twoHoursConstant = 1000 * 60 * 2 :=
  ⟨by decide, by decide, rfl⟩

end UserStarter
